import Mathlib

/-!
# Verification of the malaysian-cpi-analytics transformation layer

Shallow embedding of the repository's staging/mart transformation code and of
its warehouse-loader, mart-runner and backup-uploader control flow.

* `StagingRow`, `overallSeries`, `stateInflation` embed the SQL of
  `MartTransformer.build_inflation_by_state` (window functions
  `LAG(index_value, 1)` / `LAG(index_value, 12)` partitioned by state,
  ordered by date).
* `catKeys`, `avgIndex`, `divisionPartition`, `inflationByCategory` embed
  `MartTransformer.build_inflation_by_category` (GROUP BY average, then the
  same lag logic partitioned by division only).
* `rankOverall`, `pctVsCheapest`, `buildStateComparison` embed the ranking and
  comparison CTEs of `MartTransformer.build_state_comparison` over the pivoted
  per-state snapshot rows.
* `joinCategory`, `transform_cpi_monthly` embed the staging left join of
  `StagingTransformer.transform_cpi_monthly`.
* `log_load`, `load_to_raw` embed `PostgreSQLLoader` with the storage layer's
  outcome passed in as an `Except` value and the audit write's own success as
  a `Bool` (its exception is caught and swallowed inside `_log_load`).
* `run_all` embeds `MartTransformer.run_all`'s try/except over the three
  derivations, each derivation's query/storage outcome passed in as `Except`.
* `upload_backup_loop`, `upload_data_backup` embed
  `S3Uploader.upload_data_backup`'s per-file loop, with the filesystem and the
  storage client's per-file outcome passed in as `Bool`-valued oracles and the
  list of attempted `upload_file` calls kept as an explicit trace.

SQL `numeric` values are modelled as `Rat`; dates are modelled as `Nat` month
ordinals; SQL `NULL` in a nullable derived column is `Option`.
-/

namespace CpiAnalytics

/-- A row of `staging.cpi_monthly`: (state, date, division, category_name,
index_value). -/
structure StagingRow where
  state : String
  date : Nat
  division : String
  category_name : String
  index_value : Rat
deriving DecidableEq, Repr

/-- A row of `mart.inflation_by_state` as produced by
`build_inflation_by_state`. -/
structure StateInflationRow where
  state : String
  date : Nat
  index_value : Rat
  mom_change : Option Rat
  yoy_change : Option Rat
  inflation_rate : Option Rat
deriving DecidableEq, Repr

/-- A row of `mart.inflation_by_category` as produced by
`build_inflation_by_category`. -/
structure CategoryInflationRow where
  date : Nat
  division : String
  category_name : String
  avg_index : Rat
  mom_change : Option Rat
  yoy_change : Option Rat
deriving DecidableEq, Repr

/-- `map` that also passes the element's position, counting from the first
argument; used to embed row-numbered window computations. -/
def mapFrom (f : Nat → α → β) : Nat → List α → List β
  | _, [] => []
  | i, a :: as => f i a :: mapFrom f (i + 1) as

/-- `LAG(x, k) OVER (... ORDER BY ...)` at row position `i` of the ordered
partition `vals`: the value `k` rows earlier, `NULL` when fewer than `k` rows
precede. -/
def lagOpt (vals : List Rat) (k i : Nat) : Option Rat :=
  if k ≤ i then vals[i - k]? else none

/-- The percentage-change formula `((cur / prev) - 1) * 100` shared by the
`mom_change` / `yoy_change` / `inflation_rate` CASE expressions. -/
def pctChange (cur prev : Rat) : Rat := (cur / prev - 1) * 100

/-- SQL `MIN` over a column: `none` on the empty table. -/
def listMin : List Rat → Option Rat
  | [] => none
  | a :: as =>
    some (match listMin as with
      | none => a
      | some m => min a m)

/-! ## `build_inflation_by_state` -/

/-- The `cpi_with_lag` partition for one state: the staging rows with
`division = 'overall'` and that state, ordered by date (`PARTITION BY state
ORDER BY date`). -/
def overallSeries (rows : List StagingRow) (st : String) : List StagingRow :=
  List.insertionSort (fun a b => a.date ≤ b.date)
    (rows.filter fun r => decide (r.state = st ∧ r.division = "overall"))

/-- The index values of one state's date-ordered overall series. -/
def seriesVals (rows : List StagingRow) (st : String) : List Rat :=
  (overallSeries rows st).map fun r => r.index_value

/-- `build_inflation_by_state` restricted to one state partition: each row of
the series gets `mom_change` from `LAG(index_value, 1)`, and `yoy_change` and
`inflation_rate` both from `LAG(index_value, 12)`, each `NULL` exactly when
the lagged value is `NULL`. -/
def stateInflation (rows : List StagingRow) (st : String) : List StateInflationRow :=
  let s := overallSeries rows st
  let vals := s.map fun r => r.index_value
  mapFrom (fun i r =>
    { state := r.state
      date := r.date
      index_value := r.index_value
      mom_change := (lagOpt vals 1 i).map (pctChange r.index_value)
      yoy_change := (lagOpt vals 12 i).map (pctChange r.index_value)
      inflation_rate := (lagOpt vals 12 i).map (pctChange r.index_value) }) 0 s

/-- A state's series is monthly and gapless: consecutive observations are at
consecutive month ordinals. -/
def monthlyGapless : List StagingRow → Bool
  | [] => true
  | [_] => true
  | a :: b :: rest => (b.date == a.date + 1) && monthlyGapless (b :: rest)

/-! ## `build_inflation_by_category` -/

/-- A grouping key of the `category_avg` CTE: `(date, division, category_name)`. -/
structure CatKey where
  date : Nat
  division : String
  category_name : String
deriving DecidableEq, Repr

/-- The distinct grouping keys of `category_avg`: rows with
`division != 'overall'`, grouped by `(date, division, category_name)`. -/
def catKeys (rows : List StagingRow) : List CatKey :=
  ((rows.filter fun r => decide (r.division ≠ "overall")).map
    fun r => ⟨r.date, r.division, r.category_name⟩).dedup

/-- The index values aggregated into one `category_avg` group. -/
def groupVals (rows : List StagingRow) (k : CatKey) : List Rat :=
  (rows.filter fun r => decide (r.division ≠ "overall" ∧ r.date = k.date ∧
    r.division = k.division ∧ r.category_name = k.category_name)).map
    fun r => r.index_value

/-- `AVG(index_value)` of one `category_avg` group. -/
def avgIndex (rows : List StagingRow) (k : CatKey) : Rat :=
  (groupVals rows k).sum / ((groupVals rows k).length : Rat)

/-- The `category_with_lag` partition for one division: the grouping keys with
that division, ordered by date (`PARTITION BY division ORDER BY date` — the
partition is NOT keyed by `category_name`). -/
def divisionPartition (rows : List StagingRow) (dv : String) : List CatKey :=
  List.insertionSort (fun a b => a.date ≤ b.date)
    ((catKeys rows).filter fun k => decide (k.division = dv))

/-- `build_inflation_by_category` restricted to one division partition:
`LAG(avg_index, 1)` / `LAG(avg_index, 12)` over the division's date-ordered
sequence of group averages. -/
def inflationByCategory (rows : List StagingRow) (dv : String) :
    List CategoryInflationRow :=
  let part := divisionPartition rows dv
  let vals := part.map fun k => avgIndex rows k
  mapFrom (fun i k =>
    { date := k.date
      division := k.division
      category_name := k.category_name
      avg_index := avgIndex rows k
      mom_change := (lagOpt vals 1 i).map (pctChange (avgIndex rows k))
      yoy_change := (lagOpt vals 12 i).map (pctChange (avgIndex rows k)) }) 0 part

/-! ## `build_state_comparison` -/

/-- A row of the `pivoted` CTE, restricted to the fields the ranking and
comparison steps read (`latest_date`, `food_cpi`, `housing_cpi`,
`transport_cpi` and the joined `region` are carried through unchanged by
`with_ranks`/`with_comparison` and play no part in `rank_overall` or
`pct_vs_cheapest`). -/
structure PivotRow where
  state : String
  overall_cpi : Rat
deriving DecidableEq, Repr

/-- A row of `mart.state_comparison`, restricted to the derived fields. -/
structure ComparisonRow where
  state : String
  overall_cpi : Rat
  rank_overall : Nat
  pct_vs_cheapest : Option Rat
deriving DecidableEq, Repr

/-- `RANK() OVER (ORDER BY overall_cpi DESC)`: one more than the number of
snapshot rows with strictly greater `overall_cpi` (ties share a rank, and the
rank after a tie group skips). -/
def rankOverall (snapshot : List PivotRow) (r : PivotRow) : Nat :=
  1 + (snapshot.filter fun q => decide (r.overall_cpi < q.overall_cpi)).length

/-- Modelled from the spec's words, for comparison with `rankOverall` only: a
dense ranking assigns one more than the number of DISTINCT `overall_cpi`
values strictly greater, leaving no gaps after a tie group. -/
def denseRankOverall (snapshot : List PivotRow) (r : PivotRow) : Nat :=
  1 + (((snapshot.map fun q => q.overall_cpi).dedup).filter
    fun v => decide (r.overall_cpi < v)).length

/-- `((overall_cpi / (SELECT MIN(overall_cpi) FROM with_ranks)) - 1) * 100`. -/
def pctVsCheapest (snapshot : List PivotRow) (r : PivotRow) : Option Rat :=
  (listMin (snapshot.map fun q => q.overall_cpi)).map
    fun m => (r.overall_cpi / m - 1) * 100

/-- The derived columns of `build_state_comparison` for each pivoted state row
(the final `ORDER BY overall_cpi DESC` only orders the output rows and does
not change their contents). -/
def buildStateComparison (snapshot : List PivotRow) : List ComparisonRow :=
  snapshot.map fun r =>
    { state := r.state
      overall_cpi := r.overall_cpi
      rank_overall := rankOverall snapshot r
      pct_vs_cheapest := pctVsCheapest snapshot r }

/-! ## `StagingTransformer.transform_cpi_monthly` -/

/-- A row of `raw.cpi_data`. -/
structure RawCpiRow where
  state : String
  date : Nat
  division : String
  index : Rat
deriving DecidableEq, Repr

/-- A row of `raw.categories`. -/
structure RawCategory where
  division : String
  desc_en : String
  desc_bm : String
  digits : Nat
deriving DecidableEq, Repr

/-- The `LEFT JOIN raw.categories cat ON c.division = cat.division AND
cat.digits = 2` contribution of one raw CPI row, with
`COALESCE(cat.desc_en, 'Overall')`: no matching category row yields a single
output row with the `'Overall'` fallback label, and otherwise one output row
per matching category row. -/
def joinCategory (cats : List RawCategory) (c : RawCpiRow) : List StagingRow :=
  match cats.filter fun k => decide (k.division = c.division ∧ k.digits = 2) with
  | [] => [⟨c.state, c.date, c.division, "Overall", c.index⟩]
  | ms => ms.map fun k => ⟨c.state, c.date, c.division, k.desc_en, c.index⟩

/-- The lexicographic `ORDER BY c.date, c.state, c.division` of the staging
query. -/
def stagingLe (a b : StagingRow) : Prop :=
  a.date < b.date ∨ (a.date = b.date ∧ (a.state < b.state ∨
    (a.state = b.state ∧ (a.division < b.division ∨ a.division = b.division))))

instance : DecidableRel stagingLe := fun a b => by
  unfold stagingLe; infer_instance

/-- `transform_cpi_monthly`: the left join of every `raw.cpi_data` row with
the digit-2 categories, ordered by `(date, state, division)`. -/
def transform_cpi_monthly (cpi : List RawCpiRow) (cats : List RawCategory) :
    List StagingRow :=
  List.insertionSort stagingLe (cpi.flatMap (joinCategory cats))

/-! ## `PostgreSQLLoader.load_to_raw` and `_log_load` -/

/-- A row of the `raw.load_metadata` audit table. -/
structure AuditRecord where
  table_name : String
  records_loaded : Nat
  load_status : String
  error_message : Option String
deriving DecidableEq, Repr

/-- `_log_load`: appends one audit row; its own INSERT failure is caught
inside the helper (nothing is appended, no exception escapes).
`auditWriteOk` is whether the metadata INSERT itself succeeds. -/
def log_load (auditWriteOk : Bool) (tbl : String) (records : Nat)
    (status : String) (error : Option String) : List AuditRecord :=
  if auditWriteOk then [⟨tbl, records, status, error⟩] else []

/-- `load_to_raw`: runs the bulk `to_sql` write (its storage-layer outcome is
`bulkWrite`); on success logs a `SUCCESS` audit row with the row count and
returns the count, on failure logs a `FAILED` audit row with the error text
and re-raises the original error. Returns the appended audit rows and the
call's outcome. -/
def load_to_raw (bulkWrite : Except String Unit) (auditWriteOk : Bool)
    (tbl : String) (nrows : Nat) : List AuditRecord × Except String Nat :=
  match bulkWrite with
  | .ok _ => (log_load auditWriteOk tbl nrows "SUCCESS" none, .ok nrows)
  | .error e => (log_load auditWriteOk tbl 0 "FAILED" (some e), .error e)

/-! ## `MartTransformer.run_all` -/

/-- The three mart tables. -/
structure MartTables where
  inflation_by_state : List StateInflationRow
  inflation_by_category : List CategoryInflationRow
  state_comparison : List ComparisonRow
deriving DecidableEq, Repr

/-- `run_all`: the three derivations run in order inside one try/except; each
derivation's query/storage outcome is passed in (`.ok` carries the table it
full-replaces). Returns the mart tables after the run, the boolean the caller
receives (`True` on success, `False` on any exception — never a raised
error), and the list of derivations that were attempted, in order. -/
def run_all (init : MartTables)
    (r1 : Except String (List StateInflationRow))
    (r2 : Except String (List CategoryInflationRow))
    (r3 : Except String (List ComparisonRow)) :
    MartTables × Bool × List String :=
  match r1 with
  | .error _ => (init, false, ["inflation_by_state"])
  | .ok t1 =>
    match r2 with
    | .error _ => ({ init with inflation_by_state := t1 }, false,
        ["inflation_by_state", "inflation_by_category"])
    | .ok t2 =>
      match r3 with
      | .error _ => (⟨t1, t2, init.state_comparison⟩, false,
          ["inflation_by_state", "inflation_by_category", "state_comparison"])
      | .ok t3 => (⟨t1, t2, t3⟩, true,
          ["inflation_by_state", "inflation_by_category", "state_comparison"])

/-! ## `S3Uploader.upload_data_backup` -/

/-- The result dictionary of `upload_data_backup`. -/
structure BackupResult where
  uploaded : List String
  failed : List String
deriving DecidableEq, Repr

/-- The fixed `files_to_upload` list: (local path, s3 key) pairs for a date
partition. -/
def files_to_upload (date_partition : String) : List (String × String) :=
  [("data/raw/cpi_latest.parquet",
    "raw/cpi/date=" ++ date_partition ++ "/cpi_data.parquet"),
   ("data/raw/categories.parquet",
    "raw/categories/date=" ++ date_partition ++ "/categories.parquet")]

/-- The per-file loop of `upload_data_backup`. `exi` is whether a local path
exists on the filesystem; `up` is whether `upload_file` succeeds for a path
(it catches the client error itself and returns a boolean). The third
component is the trace of local paths for which `upload_file` was actually
called. A path that does not exist is recorded under `failed` and the loop
`continue`s without calling `upload_file`. -/
def upload_backup_loop (exi up : String → Bool) :
    List (String × String) → BackupResult → List String →
    BackupResult × List String
  | [], acc, tr => (acc, tr)
  | (l, k) :: rest, acc, tr =>
    if exi l = false then
      upload_backup_loop exi up rest { acc with failed := acc.failed ++ [l] } tr
    else if up l then
      upload_backup_loop exi up rest
        { acc with uploaded := acc.uploaded ++ [k] } (tr ++ [l])
    else
      upload_backup_loop exi up rest
        { acc with failed := acc.failed ++ [l] } (tr ++ [l])

/-- `upload_data_backup` over a file list: the final results dictionary and
the trace of attempted uploads, starting from empty `uploaded`/`failed`
lists. It never raises (it is a total function). -/
def upload_data_backup (exi up : String → Bool)
    (files : List (String × String)) : BackupResult × List String :=
  upload_backup_loop exi up files ⟨[], []⟩ []

/-! ## Helper lemmas -/

theorem mapFrom_getElem? (f : Nat → α → β) (j : Nat) (l : List α) (i : Nat) :
    (mapFrom f j l)[i]? = l[i]?.map fun a => f (j + i) a := by
  induction l generalizing j i with
  | nil => simp [mapFrom]
  | cons a as ih =>
    cases i with
    | zero => simp [mapFrom]
    | succ n =>
      have hjn : j + 1 + n = j + (n + 1) := by omega
      simp [mapFrom, ih (j + 1) n, hjn]

theorem listMin_spec : ∀ (l : List Rat) (m : Rat),
    listMin l = some m → m ∈ l ∧ ∀ y ∈ l, m ≤ y := by
  intro l
  induction l with
  | nil => intro m h; simp [listMin] at h
  | cons a as ih =>
    intro m h
    simp only [listMin] at h
    cases has : listMin as with
    | none =>
      rw [has] at h
      cases as with
      | nil =>
        simp at h
        subst h
        exact ⟨List.mem_cons_self a [], by intro y hy; simp at hy; simp [hy]⟩
      | cons b bs => simp [listMin] at has
    | some m' =>
      rw [has] at h
      simp at h
      obtain ⟨hm', hlb⟩ := ih m' has
      rcases min_cases a m' with ⟨hmin, hle⟩ | ⟨hmin, hle⟩
      · rw [hmin] at h
        subst h
        refine ⟨List.mem_cons_self a as, ?_⟩
        intro y hy
        rcases List.mem_cons.mp hy with hya | hyas
        · simp [hya]
        · exact le_trans hle (hlb y hyas)
      · rw [hmin] at h
        subst h
        refine ⟨List.mem_cons_of_mem a hm', ?_⟩
        intro y hy
        rcases List.mem_cons.mp hy with hya | hyas
        · rw [hya]; exact le_of_lt hle
        · exact hlb y hyas

theorem listMin_eq_of_min (l : List Rat) (m : Rat) (hmem : m ∈ l)
    (hlb : ∀ y ∈ l, m ≤ y) : listMin l = some m := by
  cases l with
  | nil => simp at hmem
  | cons a as =>
    obtain ⟨hm', hlb'⟩ := listMin_spec (a :: as) _ rfl
    have h1 : m ≤ _ := hlb _ hm'
    have h2 : _ ≤ m := hlb' m hmem
    have : (match listMin as with
      | none => a
      | some m => min a m) = m := le_antisymm h2 h1
    simp only [listMin, this]

theorem stateInflation_getElem? (rows : List StagingRow) (st : String) (i : Nat) :
    (stateInflation rows st)[i]? = ((overallSeries rows st)[i]?).map fun r =>
      { state := r.state
        date := r.date
        index_value := r.index_value
        mom_change := (lagOpt (seriesVals rows st) 1 i).map (pctChange r.index_value)
        yoy_change := (lagOpt (seriesVals rows st) 12 i).map (pctChange r.index_value)
        inflation_rate :=
          (lagOpt (seriesVals rows st) 12 i).map (pctChange r.index_value) } := by
  simp [stateInflation, seriesVals, mapFrom_getElem?]

/-! ## Claim theorems -/

/-- C1: in `mart.inflation_by_state`, for every state and every position in
that state's date-ordered overall series, `mom_change` is null iff no
observation precedes it in the series (it is the state's first observation),
and otherwise equals `(index(d)/index(d-1) - 1) * 100` where `index(d-1)` is
the value at the immediately preceding date of the state's series. -/
theorem mom_change_lag1_spec (rows : List StagingRow) (st : String) (i : Nat)
    (out : StateInflationRow)
    (hout : (stateInflation rows st)[i]? = some out) :
    (out.mom_change = none ↔ i = 0) ∧
    (∀ j, i = j + 1 → ∃ cur prev,
      (seriesVals rows st)[i]? = some cur ∧
      (seriesVals rows st)[j]? = some prev ∧
      out.index_value = cur ∧
      out.mom_change = some ((cur / prev - 1) * 100)) := by
  rw [stateInflation_getElem?] at hout
  rcases Option.map_eq_some'.mp hout with ⟨r, hr, hfr⟩
  have hlen : i < (overallSeries rows st).length := (List.getElem?_eq_some.mp hr).1
  subst hfr
  cases i with
  | zero =>
    constructor
    · simp [lagOpt]
    · intro j hj
      exact absurd hj.symm (Nat.succ_ne_zero j)
  | succ j =>
    have hj : j < (seriesVals rows st).length := by
      simp only [seriesVals, List.length_map]
      omega
    have hvals : (seriesVals rows st)[j]? = some ((seriesVals rows st).get ⟨j, hj⟩) :=
      List.getElem?_eq_getElem hj
    have hlag : lagOpt (seriesVals rows st) 1 (j + 1) =
        some ((seriesVals rows st).get ⟨j, hj⟩) := by
      unfold lagOpt
      rw [if_pos (by omega), Nat.add_sub_cancel]
      exact hvals
    constructor
    · simp [hlag]
    · intro j' hj'
      have hjj : j = j' := by omega
      subst hjj
      refine ⟨r.index_value, (seriesVals rows st).get ⟨j, hj⟩, ?_, hvals, rfl, ?_⟩
      · simp [seriesVals, hr]
      · simp [hlag, pctChange]

/-- A concrete three-month Selangor staging extract, listed out of date order
to exercise the `ORDER BY date`. -/
def exSelangor : List StagingRow :=
  [⟨"Selangor", 1, "overall", "Overall", 102⟩,
   ⟨"Selangor", 0, "overall", "Overall", 100⟩,
   ⟨"Selangor", 2, "overall", "Overall", 101⟩]

/-- The mart row `build_inflation_by_state` derives for Selangor's second
month: `mom_change = (102/100 - 1) * 100`, no year-over-year yet. -/
def exSelangorRow1 : StateInflationRow :=
  ⟨"Selangor", 1, 102, some ((102 / 100 - 1) * 100), none, none⟩

/-- C1 witness: on the concrete Selangor series, the second row's
`mom_change` is non-null and equals the lag-1 percentage change. -/
theorem mom_change_lag1_spec_witness :
    (exSelangorRow1.mom_change = none ↔ (1 : Nat) = 0) ∧
    (∀ j, 1 = j + 1 → ∃ cur prev,
      (seriesVals exSelangor "Selangor")[1]? = some cur ∧
      (seriesVals exSelangor "Selangor")[j]? = some prev ∧
      exSelangorRow1.index_value = cur ∧
      exSelangorRow1.mom_change = some ((cur / prev - 1) * 100)) :=
  mom_change_lag1_spec exSelangor "Selangor" 1 exSelangorRow1 rfl

/-- C2: in `mart.inflation_by_state`, for a state whose date-ordered overall
series is monthly and gapless, `yoy_change` is null for exactly the first 12
entries and non-null thereafter, and `inflation_rate` always equals
`yoy_change` (the same `LAG(index_value, 12)` CASE expression). -/
theorem yoy_change_first_twelve_null (rows : List StagingRow) (st : String)
    (hgap : monthlyGapless (overallSeries rows st) = true) (i : Nat)
    (out : StateInflationRow)
    (hout : (stateInflation rows st)[i]? = some out) :
    (out.yoy_change = none ↔ i < 12) ∧ out.inflation_rate = out.yoy_change := by
  rw [stateInflation_getElem?] at hout
  rcases Option.map_eq_some'.mp hout with ⟨r, hr, hfr⟩
  have hlen : i < (overallSeries rows st).length := (List.getElem?_eq_some.mp hr).1
  subst hfr
  refine ⟨?_, rfl⟩
  by_cases h12 : i < 12
  · have hnone : lagOpt (seriesVals rows st) 12 i = none := by
      unfold lagOpt
      rw [if_neg (by omega)]
    simp [hnone, h12]
  · have hj : i - 12 < (seriesVals rows st).length := by
      simp only [seriesVals, List.length_map]
      omega
    have hsome : lagOpt (seriesVals rows st) 12 i =
        some ((seriesVals rows st).get ⟨i - 12, hj⟩) := by
      unfold lagOpt
      rw [if_pos (by omega)]
      exact List.getElem?_eq_getElem hj
    simp [hsome, h12]

/-- A thirteen-month gapless Johor series with constant overall index 100. -/
def exJohor : List StagingRow :=
  (List.range 13).map fun i => ⟨"Johor", i, "overall", "Overall", 100⟩

/-- The mart row `build_inflation_by_state` derives for Johor's thirteenth
month: both lags exist, so `yoy_change` and `inflation_rate` are non-null. -/
def exJohorRow12 : StateInflationRow :=
  ⟨"Johor", 12, 100, some ((100 / 100 - 1) * 100), some ((100 / 100 - 1) * 100),
   some ((100 / 100 - 1) * 100)⟩

/-- C2 witness: on the concrete thirteen-month gapless Johor series, the
thirteenth row (position 12) has non-null `yoy_change` and its
`inflation_rate` equals its `yoy_change`. -/
theorem yoy_change_first_twelve_null_witness :
    (exJohorRow12.yoy_change = none ↔ (12 : Nat) < 12) ∧
    exJohorRow12.inflation_rate = exJohorRow12.yoy_change :=
  yoy_change_first_twelve_null exJohor "Johor" rfl 12 exJohorRow12 rfl

theorem length_filter_lt_length_filter {α : Type _} (l : List α) (p q : α → Bool)
    (hpq : ∀ a ∈ l, p a = true → q a = true) (x : α) (hx : x ∈ l)
    (hqx : q x = true) (hpx : p x = false) :
    (l.filter p).length < (l.filter q).length := by
  induction l with
  | nil => simp at hx
  | cons a as ih =>
    rcases List.mem_cons.mp hx with rfl | hxs
    · rw [List.filter_cons_of_neg (by simp [hpx]),
        List.filter_cons_of_pos hqx, List.length_cons]
      have hle : (as.filter p).length ≤ (as.filter q).length := by
        rw [← List.countP_eq_length_filter, ← List.countP_eq_length_filter]
        exact List.countP_mono_left fun b hb =>
          hpq b (List.mem_cons_of_mem _ hb)
      omega
    · have ih' := ih (fun b hb => hpq b (List.mem_cons_of_mem a hb)) hxs
      cases hpa : p a with
      | true =>
        have hqa := hpq a (List.mem_cons_self a as) hpa
        rw [List.filter_cons_of_pos hpa, List.filter_cons_of_pos hqa,
          List.length_cons, List.length_cons]
        omega
      | false =>
        rw [List.filter_cons_of_neg (by simp [hpa])]
        cases hqa : q a with
        | true =>
          rw [List.filter_cons_of_pos hqa, List.length_cons]
          omega
        | false =>
          rw [List.filter_cons_of_neg (by simp [hqa])]
          exact ih'

/-- The claim's illustrative snapshot: states A (120), B (100), C (110). -/
def exDistinct : List PivotRow := [⟨"A", 120⟩, ⟨"B", 100⟩, ⟨"C", 110⟩]

/-- A snapshot with a tie: A and B share overall_cpi 120, C has 100. -/
def exTied : List PivotRow := [⟨"A", 120⟩, ⟨"B", 120⟩, ⟨"C", 100⟩]

/-- C3 counterexample: on a snapshot with tied states A and B at 120,
`RANK()` assigns C rank 3 while a dense ranking assigns C rank 2 — so
`rank_overall` is not a dense ranking. -/
theorem rank_overall_not_dense_counterexample :
    rankOverall exTied ⟨"C", 100⟩ = 3 ∧
    denseRankOverall exTied ⟨"C", 100⟩ = 2 ∧
    ¬ (∀ s : List PivotRow, ∀ r ∈ s, rankOverall s r = denseRankOverall s r) :=
  ⟨rfl, rfl, fun h => absurd (h exTied ⟨"C", 100⟩ (by decide)) (by decide)⟩

/-- C3 (amended): `rank_overall` is a standard competition (`RANK()`) ranking
by descending overall_cpi — each state's rank is one more than the number of
states with strictly greater overall_cpi, ties share a rank (with subsequent
ranks skipped rather than densely compacted) — and on the claim's snapshot
A (120), B (100), C (110) it assigns A=1, C=2, B=3. -/
theorem rank_overall_competition_ranking (s : List PivotRow) (r1 r2 : PivotRow)
    (h1 : r1 ∈ s) (h2 : r2 ∈ s) :
    (r1.overall_cpi = r2.overall_cpi → rankOverall s r1 = rankOverall s r2) ∧
    (r2.overall_cpi < r1.overall_cpi → rankOverall s r1 < rankOverall s r2) ∧
    rankOverall exDistinct ⟨"A", 120⟩ = 1 ∧
    rankOverall exDistinct ⟨"C", 110⟩ = 2 ∧
    rankOverall exDistinct ⟨"B", 100⟩ = 3 := by
  refine ⟨?_, ?_, rfl, rfl, rfl⟩
  · intro heq
    unfold rankOverall
    have hfeq : List.filter (fun q => decide (r1.overall_cpi < q.overall_cpi)) s
        = List.filter (fun q => decide (r2.overall_cpi < q.overall_cpi)) s := by
      apply List.filter_congr
      intro q _
      rw [heq]
    rw [hfeq]
  · intro hlt
    unfold rankOverall
    have := length_filter_lt_length_filter s
      (fun q => decide (r1.overall_cpi < q.overall_cpi))
      (fun q => decide (r2.overall_cpi < q.overall_cpi))
      (fun a _ ha => by
        simp only [decide_eq_true_eq] at ha ⊢
        exact lt_trans hlt ha)
      r1 h1 (by simp [hlt]) (by simp)
    omega

/-- C3 witness: the amended ranking facts instantiated on the claim's
snapshot at states A and C. -/
theorem rank_overall_competition_ranking_witness :
    (((⟨"A", 120⟩ : PivotRow).overall_cpi = (⟨"C", 110⟩ : PivotRow).overall_cpi →
      rankOverall exDistinct ⟨"A", 120⟩ = rankOverall exDistinct ⟨"C", 110⟩) ∧
    ((⟨"C", 110⟩ : PivotRow).overall_cpi < (⟨"A", 120⟩ : PivotRow).overall_cpi →
      rankOverall exDistinct ⟨"A", 120⟩ < rankOverall exDistinct ⟨"C", 110⟩) ∧
    rankOverall exDistinct ⟨"A", 120⟩ = 1 ∧
    rankOverall exDistinct ⟨"C", 110⟩ = 2 ∧
    rankOverall exDistinct ⟨"B", 100⟩ = 3) :=
  rank_overall_competition_ranking exDistinct ⟨"A", 120⟩ ⟨"C", 110⟩
    (by decide) (by decide)

/-- C4: for every snapshot whose minimum overall_cpi `m` is positive,
`pct_vs_cheapest` equals `((overall_cpi / m) - 1) * 100`, is 0 exactly for
the states achieving the minimum, is non-negative, and is strictly
monotone in overall_cpi. -/
theorem pct_vs_cheapest_spec (s : List PivotRow) (m : Rat)
    (hmem : m ∈ s.map fun q => q.overall_cpi)
    (hlb : ∀ r' ∈ s, m ≤ r'.overall_cpi) (hpos : 0 < m)
    (r : PivotRow) (hr : r ∈ s) :
    pctVsCheapest s r = some ((r.overall_cpi / m - 1) * 100) ∧
    (pctVsCheapest s r = some 0 ↔ r.overall_cpi = m) ∧
    (∀ p, pctVsCheapest s r = some p → 0 ≤ p) ∧
    (∀ r2 p p2, r2 ∈ s → pctVsCheapest s r = some p →
      pctVsCheapest s r2 = some p2 → r.overall_cpi < r2.overall_cpi →
      p < p2) := by
  have hmin : listMin (s.map fun q => q.overall_cpi) = some m := by
    apply listMin_eq_of_min _ _ hmem
    intro y hy
    rcases List.mem_map.mp hy with ⟨r', hr', rfl⟩
    exact hlb r' hr'
  have hm0 : m ≠ 0 := ne_of_gt hpos
  have hpct : ∀ q : PivotRow,
      pctVsCheapest s q = some ((q.overall_cpi / m - 1) * 100) := by
    intro q
    simp [pctVsCheapest, hmin]
  refine ⟨hpct r, ?_, ?_, ?_⟩
  · rw [hpct r]
    constructor
    · intro h0
      have h0' : (r.overall_cpi / m - 1) * 100 = 0 := by
        injection h0
      have hdiv : r.overall_cpi / m = 1 := by
        rcases mul_eq_zero.mp h0' with h | h
        · linarith
        · norm_num at h
      exact (div_eq_one_iff_eq hm0).mp hdiv
    · intro heq
      rw [heq, div_self hm0]
      norm_num
  · intro p hp
    rw [hpct r] at hp
    have hp' : (r.overall_cpi / m - 1) * 100 = p := by injection hp
    have h1 : 1 ≤ r.overall_cpi / m := (one_le_div hpos).mpr (hlb r hr)
    nlinarith
  · intro r2 p p2 _ hp hp2 hlt
    rw [hpct r] at hp
    rw [hpct r2] at hp2
    have hp' : (r.overall_cpi / m - 1) * 100 = p := by injection hp
    have hp2' : (r2.overall_cpi / m - 1) * 100 = p2 := by injection hp2
    have hdiv : r.overall_cpi / m < r2.overall_cpi / m :=
      (div_lt_div_iff_of_pos_right hpos).mpr hlt
    nlinarith

/-- C4 witness: on the claim's snapshot (minimum 100, held by B), state C at
110 gets `pct_vs_cheapest = (110/100 - 1) * 100`, which is non-zero since
110 ≠ 100, and is below state A's value. -/
theorem pct_vs_cheapest_spec_witness :
    (pctVsCheapest exDistinct ⟨"C", 110⟩ =
      some (((⟨"C", 110⟩ : PivotRow).overall_cpi / 100 - 1) * 100)) ∧
    (pctVsCheapest exDistinct ⟨"C", 110⟩ = some 0 ↔
      (⟨"C", 110⟩ : PivotRow).overall_cpi = 100) ∧
    (∀ p, pctVsCheapest exDistinct ⟨"C", 110⟩ = some p → 0 ≤ p) ∧
    (∀ r2 p p2, r2 ∈ exDistinct →
      pctVsCheapest exDistinct ⟨"C", 110⟩ = some p →
      pctVsCheapest exDistinct r2 = some p2 →
      (⟨"C", 110⟩ : PivotRow).overall_cpi < r2.overall_cpi → p < p2) :=
  pct_vs_cheapest_spec exDistinct 100 (by decide) (by decide) (by decide)
    ⟨"C", 110⟩ (by decide)

theorem inflationByCategory_getElem? (rows : List StagingRow) (dv : String)
    (i : Nat) :
    (inflationByCategory rows dv)[i]? =
      ((divisionPartition rows dv)[i]?).map fun k =>
      { date := k.date
        division := k.division
        category_name := k.category_name
        avg_index := avgIndex rows k
        mom_change :=
          (lagOpt ((divisionPartition rows dv).map fun k' => avgIndex rows k')
            1 i).map (pctChange (avgIndex rows k))
        yoy_change :=
          (lagOpt ((divisionPartition rows dv).map fun k' => avgIndex rows k')
            12 i).map (pctChange (avgIndex rows k)) } := by
  simp [inflationByCategory, mapFrom_getElem?]

theorem groupVals_length_ne_zero (rows : List StagingRow) (k : CatKey)
    (hk : k ∈ catKeys rows) : (groupVals rows k).length ≠ 0 := by
  rcases List.mem_map.mp (List.mem_dedup.mp hk) with ⟨r, hr, hkr⟩
  rcases List.mem_filter.mp hr with ⟨hrrows, hrdiv⟩
  subst hkr
  have hmem : r ∈ rows.filter fun r' => decide (r'.division ≠ "overall" ∧
      r'.date = r.date ∧ r'.division = r.division ∧
      r'.category_name = r.category_name) := by
    apply List.mem_filter.mpr
    refine ⟨hrrows, ?_⟩
    simp only [decide_eq_true_eq] at hrdiv
    simp [hrdiv]
  have hval : r.index_value ∈ groupVals rows ⟨r.date, r.division, r.category_name⟩ :=
    List.mem_map_of_mem _ hmem
  intro h0
  rw [List.length_eq_zero] at h0
  rw [h0] at hval
  simp at hval

/-- C5: in `mart.inflation_by_category`, every output row of a division
partition has `avg_index` equal to the mean of the staging index values for
its `(date, division, category_name)` group (division ≠ 'overall'), and its
`mom_change` / `yoy_change` are the lag-1 / lag-12 percentage changes over
the series of group averages partitioned by division only and ordered by
date — the lagged neighbour is the previous key of the division partition,
whatever its `category_name`. -/
theorem category_avg_division_lag_spec (rows : List StagingRow) (dv : String)
    (i : Nat) (row : CategoryInflationRow)
    (hrow : (inflationByCategory rows dv)[i]? = some row) :
    (row.division = dv ∧
     (groupVals rows ⟨row.date, row.division, row.category_name⟩).length ≠ 0 ∧
     row.avg_index =
       (groupVals rows ⟨row.date, row.division, row.category_name⟩).sum /
       ((groupVals rows ⟨row.date, row.division, row.category_name⟩).length :
         Rat)) ∧
    (row.mom_change = none ↔ i = 0) ∧
    (∀ j, i = j + 1 → ∃ prev : CatKey,
      (divisionPartition rows dv)[j]? = some prev ∧
      row.mom_change = some ((row.avg_index / avgIndex rows prev - 1) * 100)) ∧
    (row.yoy_change = none ↔ i < 12) ∧
    (12 ≤ i → ∃ prev12 : CatKey,
      (divisionPartition rows dv)[i - 12]? = some prev12 ∧
      row.yoy_change =
        some ((row.avg_index / avgIndex rows prev12 - 1) * 100)) := by
  rw [inflationByCategory_getElem?] at hrow
  rcases Option.map_eq_some'.mp hrow with ⟨k, hk, hfk⟩
  have hlen : i < (divisionPartition rows dv).length :=
    (List.getElem?_eq_some.mp hk).1
  have hkmem : k ∈ divisionPartition rows dv := List.getElem?_mem hk
  have hkf : k ∈ (catKeys rows).filter fun k' => decide (k'.division = dv) :=
    (List.perm_insertionSort _ _).mem_iff.mp hkmem
  rcases List.mem_filter.mp hkf with ⟨hkkeys, hkdv⟩
  have hdv : k.division = dv := by simpa using hkdv
  subst hfk
  refine ⟨⟨hdv, ?_, ?_⟩, ?_, ?_, ?_, ?_⟩
  · exact groupVals_length_ne_zero rows k hkkeys
  · rfl
  · -- mom_change is null iff first of the partition
    cases i with
    | zero => simp [lagOpt]
    | succ j =>
      have hj : j < ((divisionPartition rows dv).map fun k' =>
          avgIndex rows k').length := by
        rw [List.length_map]
        omega
      have hlag : lagOpt ((divisionPartition rows dv).map fun k' =>
          avgIndex rows k') 1 (j + 1) =
          some (((divisionPartition rows dv).map fun k' =>
            avgIndex rows k').get ⟨j, hj⟩) := by
        unfold lagOpt
        rw [if_pos (by omega), Nat.add_sub_cancel]
        exact List.getElem?_eq_getElem hj
      simp [hlag]
  · -- the lag-1 neighbour is the previous key of the division partition
    intro j hij
    subst hij
    have hjlen : j < (divisionPartition rows dv).length := by omega
    have hprev : (divisionPartition rows dv)[j]? =
        some ((divisionPartition rows dv).get ⟨j, hjlen⟩) :=
      List.getElem?_eq_getElem hjlen
    refine ⟨(divisionPartition rows dv).get ⟨j, hjlen⟩, hprev, ?_⟩
    have hj : j < ((divisionPartition rows dv).map fun k' =>
        avgIndex rows k').length := by
      rw [List.length_map]
      omega
    have hlag : lagOpt ((divisionPartition rows dv).map fun k' =>
        avgIndex rows k') 1 (j + 1) =
        some (avgIndex rows ((divisionPartition rows dv).get ⟨j, hjlen⟩)) := by
      unfold lagOpt
      rw [if_pos (by omega), Nat.add_sub_cancel]
      rw [List.getElem?_eq_getElem hj]
      simp
    simp [hlag, pctChange]
  · -- yoy_change is null iff within the first 12
    by_cases h12 : i < 12
    · have hnone : lagOpt ((divisionPartition rows dv).map fun k' =>
          avgIndex rows k') 12 i = none := by
        unfold lagOpt
        rw [if_neg (by omega)]
      simp [hnone, h12]
    · have hj : i - 12 < ((divisionPartition rows dv).map fun k' =>
          avgIndex rows k').length := by
        rw [List.length_map]
        omega
      have hsome : lagOpt ((divisionPartition rows dv).map fun k' =>
          avgIndex rows k') 12 i =
          some (((divisionPartition rows dv).map fun k' =>
            avgIndex rows k').get ⟨i - 12, hj⟩) := by
        unfold lagOpt
        rw [if_pos (by omega)]
        exact List.getElem?_eq_getElem hj
      simp [hsome, h12]
  · -- the lag-12 neighbour is the key 12 positions earlier in the partition
    intro h12
    have hjlen : i - 12 < (divisionPartition rows dv).length := by omega
    have hprev : (divisionPartition rows dv)[i - 12]? =
        some ((divisionPartition rows dv).get ⟨i - 12, hjlen⟩) :=
      List.getElem?_eq_getElem hjlen
    refine ⟨(divisionPartition rows dv).get ⟨i - 12, hjlen⟩, hprev, ?_⟩
    have hj : i - 12 < ((divisionPartition rows dv).map fun k' =>
        avgIndex rows k').length := by
      rw [List.length_map]
      omega
    have hlag : lagOpt ((divisionPartition rows dv).map fun k' =>
        avgIndex rows k') 12 i =
        some (avgIndex rows ((divisionPartition rows dv).get ⟨i - 12, hjlen⟩)) := by
      unfold lagOpt
      rw [if_pos (by omega)]
      rw [List.getElem?_eq_getElem hj]
      simp
    simp [hlag, pctChange]

/-- A concrete staging extract for division "01" (Food): two states over two
months. -/
def exCatRows : List StagingRow :=
  [⟨"Selangor", 0, "01", "Food", 100⟩,
   ⟨"Johor", 0, "01", "Food", 110⟩,
   ⟨"Selangor", 1, "01", "Food", 102⟩,
   ⟨"Johor", 1, "01", "Food", 112⟩]

/-- The two grouping keys of the example: months 0 and 1 of (01, Food). -/
def exCatKey0 : CatKey := ⟨0, "01", "Food"⟩

/-- See `exCatKey0`. -/
def exCatKey1 : CatKey := ⟨1, "01", "Food"⟩

/-- The second mart row `build_inflation_by_category` derives for division
"01": national average of month 1, month-over-month change against month 0's
average. -/
def exCatRow1 : CategoryInflationRow :=
  ⟨1, "01", "Food", avgIndex exCatRows exCatKey1,
   some (pctChange (avgIndex exCatRows exCatKey1) (avgIndex exCatRows exCatKey0)),
   none⟩

/-- C5 witness: on the concrete two-state extract, division "01"'s second
output row averages the two states' month-1 values and takes its
`mom_change` against the division partition's previous (month-0) average. -/
theorem category_avg_division_lag_spec_witness :
    (exCatRow1.division = "01" ∧
     (groupVals exCatRows
       ⟨exCatRow1.date, exCatRow1.division, exCatRow1.category_name⟩).length ≠ 0 ∧
     exCatRow1.avg_index =
       (groupVals exCatRows
         ⟨exCatRow1.date, exCatRow1.division, exCatRow1.category_name⟩).sum /
       ((groupVals exCatRows
         ⟨exCatRow1.date, exCatRow1.division, exCatRow1.category_name⟩).length :
         Rat)) ∧
    (exCatRow1.mom_change = none ↔ (1 : Nat) = 0) ∧
    (∀ j, 1 = j + 1 → ∃ prev : CatKey,
      (divisionPartition exCatRows "01")[j]? = some prev ∧
      exCatRow1.mom_change =
        some ((exCatRow1.avg_index / avgIndex exCatRows prev - 1) * 100)) ∧
    (exCatRow1.yoy_change = none ↔ (1 : Nat) < 12) ∧
    (12 ≤ (1 : Nat) → ∃ prev12 : CatKey,
      (divisionPartition exCatRows "01")[1 - 12]? = some prev12 ∧
      exCatRow1.yoy_change =
        some ((exCatRow1.avg_index / avgIndex exCatRows prev12 - 1) * 100)) :=
  category_avg_division_lag_spec exCatRows "01" 1 exCatRow1 rfl

/-- C6: when each division has at most one digit-2 category row, the staging
left join emits exactly one `staging.cpi_monthly` row per `raw.cpi_data` row
(so the row counts match), and a raw row with no digit-2 match gets the
`'Overall'` fallback label. -/
theorem staging_rowcount_conserved (cpi : List RawCpiRow)
    (cats : List RawCategory)
    (h : ∀ dv : String,
      (cats.filter fun k => decide (k.division = dv ∧ k.digits = 2)).length ≤ 1) :
    (transform_cpi_monthly cpi cats).length = cpi.length ∧
    ∀ c ∈ cpi,
      (cats.filter fun k => decide (k.division = c.division ∧ k.digits = 2))
        = [] →
      joinCategory cats c = [⟨c.state, c.date, c.division, "Overall", c.index⟩] := by
  constructor
  · rw [transform_cpi_monthly, List.length_insertionSort]
    induction cpi with
    | nil => rfl
    | cons c cs ih =>
      rw [List.flatMap_cons, List.length_append, ih]
      have hc : (joinCategory cats c).length = 1 := by
        unfold joinCategory
        cases hms : cats.filter fun k =>
            decide (k.division = c.division ∧ k.digits = 2) with
        | nil => rfl
        | cons m ms =>
          have hle := h c.division
          rw [hms, List.length_cons] at hle
          have hms0 : ms.length = 0 := by omega
          rw [List.length_map, List.length_cons, hms0]
      rw [hc, List.length_cons]
      omega
  · intro c _ hnil
    unfold joinCategory
    rw [hnil]

/-- A two-row raw extract: one Food observation and one overall observation. -/
def exRawCpi : List RawCpiRow :=
  [⟨"Selangor", 0, "01", 100⟩, ⟨"Selangor", 0, "overall", 105⟩]

/-- A category dictionary with a single digit-2 entry for division "01". -/
def exRawCats : List RawCategory := [⟨"01", "Food", "Makanan", 2⟩]

/-- C6 witness: on the concrete extract (where the overall row has no digit-2
category match and falls back to 'Overall'), staging keeps both raw rows. -/
theorem staging_rowcount_conserved_witness :
    (transform_cpi_monthly exRawCpi exRawCats).length = exRawCpi.length ∧
    ∀ c ∈ exRawCpi,
      (exRawCats.filter fun k => decide (k.division = c.division ∧ k.digits = 2))
        = [] →
      joinCategory exRawCats c =
        [⟨c.state, c.date, c.division, "Overall", c.index⟩] :=
  staging_rowcount_conserved exRawCpi exRawCats
    (fun _ => List.length_filter_le _ _)

/-- C7: `load_to_raw` with a working audit table appends a SUCCESS audit row
carrying the loaded row count and returns that count when the bulk write
succeeds, and appends a FAILED audit row carrying the error text and
re-raises the original storage error when the bulk write fails — the audit
write never swallows the load error. -/
theorem load_to_raw_audit_spec (bulkWrite : Except String Unit) (tbl : String)
    (n : Nat) :
    (bulkWrite = .ok () →
      load_to_raw bulkWrite true tbl n =
        ([⟨tbl, n, "SUCCESS", none⟩], .ok n)) ∧
    (∀ e, bulkWrite = .error e →
      load_to_raw bulkWrite true tbl n =
        ([⟨tbl, 0, "FAILED", some e⟩], .error e)) := by
  constructor
  · intro h
    subst h
    rfl
  · intro e h
    subst h
    rfl

/-- C7 witness: a concrete successful load of 5 rows and a concrete failed
load whose original error is re-raised after the FAILED audit row. -/
theorem load_to_raw_audit_spec_witness :
    load_to_raw (.ok ()) true "cpi_data" 5 =
      ([⟨"cpi_data", 5, "SUCCESS", none⟩], .ok 5) ∧
    load_to_raw (.error "disk full") true "cpi_data" 5 =
      ([⟨"cpi_data", 0, "FAILED", some "disk full"⟩], .error "disk full") :=
  ⟨(load_to_raw_audit_spec (.ok ()) "cpi_data" 5).1 rfl,
   (load_to_raw_audit_spec (.error "disk full") "cpi_data" 5).2 "disk full" rfl⟩

/-- C10 (implicit): a failure of the audit INSERT itself is swallowed inside
`_log_load` and never alters `load_to_raw`'s outcome — a successful bulk load
still returns its row count, and a failed bulk load still raises the
original storage error, even when the audit write fails. -/
theorem audit_failure_preserves_outcome (bulkWrite : Except String Unit)
    (auditWriteOk : Bool) (tbl : String) (n : Nat) :
    ((load_to_raw bulkWrite auditWriteOk tbl n).2 =
      (load_to_raw bulkWrite true tbl n).2) ∧
    (bulkWrite = .ok () → (load_to_raw bulkWrite false tbl n).2 = .ok n) ∧
    (∀ e, bulkWrite = .error e →
      (load_to_raw bulkWrite false tbl n).2 = .error e) := by
  refine ⟨?_, ?_, ?_⟩
  · cases bulkWrite <;> rfl
  · intro h
    subst h
    rfl
  · intro e h
    subst h
    rfl

/-- C10 witness: with a broken audit table, a failed bulk load still raises
the original storage error, not the audit error. -/
theorem audit_failure_preserves_outcome_witness :
    (load_to_raw (.error "disk full") false "cpi_data" 7).2 =
      .error "disk full" :=
  (audit_failure_preserves_outcome (.error "disk full") false "cpi_data" 7).2.2
    "disk full" rfl

/-- C8: `run_all` returns `True` when all three derivations succeed; any
derivation's exception makes it return `False` (no exception reaches the
caller), tables rewritten before the failure keep their new contents,
tables after the failure point keep their previous contents, and derivations
after the failure point are not attempted. -/
theorem run_all_failure_semantics (init : MartTables)
    (r1 : Except String (List StateInflationRow))
    (r2 : Except String (List CategoryInflationRow))
    (r3 : Except String (List ComparisonRow)) :
    (∀ t1 t2 t3, r1 = .ok t1 → r2 = .ok t2 → r3 = .ok t3 →
      run_all init r1 r2 r3 = (⟨t1, t2, t3⟩, true,
        ["inflation_by_state", "inflation_by_category", "state_comparison"])) ∧
    (∀ e1, r1 = .error e1 →
      run_all init r1 r2 r3 = (init, false, ["inflation_by_state"])) ∧
    (∀ t1 e2, r1 = .ok t1 → r2 = .error e2 →
      run_all init r1 r2 r3 = ({ init with inflation_by_state := t1 }, false,
        ["inflation_by_state", "inflation_by_category"])) ∧
    (∀ t1 t2 e3, r1 = .ok t1 → r2 = .ok t2 → r3 = .error e3 →
      run_all init r1 r2 r3 = (⟨t1, t2, init.state_comparison⟩, false,
        ["inflation_by_state", "inflation_by_category", "state_comparison"])) := by
  refine ⟨?_, ?_, ?_, ?_⟩ <;> intros <;> subst_vars <;> rfl

/-- The mart state before the witness run: an old state_comparison table. -/
def exInitTables : MartTables := ⟨[], [], [⟨"Old", 1, 1, none⟩]⟩

/-- C8 witness: the first derivation succeeds and rewrites its table, the
second raises; the caller gets `False`, the old `state_comparison` contents
survive, and the third derivation is never attempted. -/
theorem run_all_failure_semantics_witness :
    run_all exInitTables (.ok [exSelangorRow1]) (.error "boom") (.ok []) =
      ({ exInitTables with inflation_by_state := [exSelangorRow1] }, false,
       ["inflation_by_state", "inflation_by_category"]) :=
  (run_all_failure_semantics exInitTables (.ok [exSelangorRow1]) (.error "boom")
    (.ok [])).2.2.1 [exSelangorRow1] "boom" rfl rfl

theorem upload_backup_loop_spec (exi up : String → Bool) :
    ∀ (files : List (String × String)) (acc : BackupResult) (tr : List String),
    upload_backup_loop exi up files acc tr =
      (⟨acc.uploaded ++ (files.filterMap fun p =>
          if exi p.1 && up p.1 then some p.2 else none),
        acc.failed ++ (files.filterMap fun p =>
          if exi p.1 && up p.1 then none else some p.1)⟩,
       tr ++ (files.filterMap fun p => if exi p.1 then some p.1 else none)) := by
  intro files
  induction files with
  | nil =>
    intro acc tr
    simp [upload_backup_loop]
  | cons f fs ih =>
    intro acc tr
    obtain ⟨l, k⟩ := f
    cases hex : exi l with
    | false => simp [upload_backup_loop, hex, ih, List.filterMap_cons]
    | true =>
      cases hup : up l with
      | true => simp [upload_backup_loop, hex, hup, ih, List.filterMap_cons]
      | false => simp [upload_backup_loop, hex, hup, ih, List.filterMap_cons]

/-- C9: for every run, a configured local path that does not exist is
recorded in `failed` and `upload_file` is never called for it (no raise: the
function is total); an existing path is attempted and classified into
`uploaded` (by its remote key) on client success or `failed` (by its local
path) on client failure. -/
theorem upload_backup_classification (exi up : String → Bool)
    (d l k : String) (hmem : (l, k) ∈ files_to_upload d) :
    (exi l = false →
      l ∈ (upload_data_backup exi up (files_to_upload d)).1.failed ∧
      l ∉ (upload_data_backup exi up (files_to_upload d)).2) ∧
    (exi l = true →
      l ∈ (upload_data_backup exi up (files_to_upload d)).2 ∧
      (up l = true →
        k ∈ (upload_data_backup exi up (files_to_upload d)).1.uploaded) ∧
      (up l = false →
        l ∈ (upload_data_backup exi up (files_to_upload d)).1.failed)) := by
  rw [upload_data_backup, upload_backup_loop_spec]
  simp only [List.nil_append]
  constructor
  · intro hex
    constructor
    · exact List.mem_filterMap.mpr ⟨(l, k), hmem, by simp [hex]⟩
    · intro hl
      rcases List.mem_filterMap.mp hl with ⟨p, _, hpe⟩
      by_cases hp : exi p.1 = true
      · rw [if_pos hp] at hpe
        rw [Option.some_inj.mp hpe] at hp
        rw [hp] at hex
        exact Bool.noConfusion hex
      · rw [if_neg hp] at hpe
        exact Option.noConfusion hpe
  · intro hex
    refine ⟨?_, ?_, ?_⟩
    · exact List.mem_filterMap.mpr ⟨(l, k), hmem, by simp [hex]⟩
    · intro hup
      exact List.mem_filterMap.mpr ⟨(l, k), hmem, by simp [hex, hup]⟩
    · intro hup
      exact List.mem_filterMap.mpr ⟨(l, k), hmem, by simp [hex, hup]⟩

/-- The filesystem of the C9 witness run: only the CPI snapshot exists. -/
def exExists : String → Bool := fun s => s == "data/raw/cpi_latest.parquet"

/-- The storage client of the C9 witness run: every attempted upload
succeeds. -/
def exUpload : String → Bool := fun _ => true

/-- C9 witness: on a run where the categories snapshot is missing, its path
is recorded under `failed` and no upload is attempted for it. -/
theorem upload_backup_classification_witness :
    (exExists "data/raw/categories.parquet" = false →
      "data/raw/categories.parquet" ∈
        (upload_data_backup exExists exUpload
          (files_to_upload "2024-01-01")).1.failed ∧
      "data/raw/categories.parquet" ∉
        (upload_data_backup exExists exUpload
          (files_to_upload "2024-01-01")).2) ∧
    (exExists "data/raw/categories.parquet" = true →
      "data/raw/categories.parquet" ∈
        (upload_data_backup exExists exUpload
          (files_to_upload "2024-01-01")).2 ∧
      (exUpload "data/raw/categories.parquet" = true →
        "raw/categories/date=2024-01-01/categories.parquet" ∈
          (upload_data_backup exExists exUpload
            (files_to_upload "2024-01-01")).1.uploaded) ∧
      (exUpload "data/raw/categories.parquet" = false →
        "data/raw/categories.parquet" ∈
          (upload_data_backup exExists exUpload
            (files_to_upload "2024-01-01")).1.failed)) :=
  upload_backup_classification exExists exUpload "2024-01-01"
    "data/raw/categories.parquet" "raw/categories/date=2024-01-01/categories.parquet"
    (by decide)

end CpiAnalytics
